import Mathlib

/-!
Verification of the dnsgauge measurement-and-aggregation engine
(src/dnsgauge.py) against its natural-language specification.

The Python code is shallowly embedded: floats are modelled as exact
rationals (the spec itself asks only for floating-point-tolerance
equivalence of the arithmetic), fallible transport behaviour is modelled
as an explicit inductive input to the query functions, and the optional
float fields of the source dataclasses become Option values.
-/

/-- Floor of a rational, written exactly as the computable
Batteries definition so that it reduces; equal to the Mathlib floor. -/
def qfloor (q : ℚ) : ℤ := q.num / q.den

theorem qfloor_eq (q : ℚ) : qfloor q = ⌊q⌋ := by
  rw [Rat.floor_def, qfloor]

/-- Python int() applied to a float truncates toward zero.  On the
nonnegative arguments that actually occur in percentile it agrees
with the floor. -/
def int_trunc (q : ℚ) : ℤ := if q < 0 then -qfloor (-q) else qfloor q

theorem int_trunc_of_nonneg {q : ℚ} (h : 0 ≤ q) : int_trunc q = ⌊q⌋ := by
  rw [int_trunc, if_neg (by linarith), qfloor_eq]

/-- The error-kind classification enum of a query outcome; the source
uses the string literals with these same names. -/
inductive ErrorKind
  | ok
  | timeout
  | http_err
  | parse_err
  | nxdomain
  | servfail
  | other
deriving DecidableEq, Repr

/-- Embedding of the Measurement dataclass of src/dnsgauge.py. -/
structure Measurement where
  latency_ms : Option ℚ
  ok : Bool
  error_kind : ErrorKind
  resp_bytes : ℕ
  qtype : String
  pass_index : ℕ
  trunc : Bool := false
  tcp_fallback : Bool := false
  http_version : String := ""
deriving DecidableEq, Repr

/-- Embedding of the percentile function of src/dnsgauge.py.  The
source returns NaN for an empty list; that value is modelled as 0 here
(every claim and every call site guards against the empty list). -/
def percentile (sorted_vals : List ℚ) (p : ℚ) : ℚ :=
  if sorted_vals = [] then 0
  else if p ≤ 0 then sorted_vals.getD 0 0
  else if 100 ≤ p then sorted_vals.getD (sorted_vals.length - 1) 0
  else
    let k : ℚ := ((sorted_vals.length - 1 : ℕ) : ℚ) * (p / 100)
    let f : ℤ := int_trunc k
    let c : ℤ := min (f + 1) ((sorted_vals.length : ℤ) - 1)
    if f = c then sorted_vals.getD f.toNat 0
    else sorted_vals.getD f.toNat 0 * ((c : ℚ) - k) + sorted_vals.getD c.toNat 0 * (k - (f : ℚ))

/-- The percentile algorithm exactly as the specification words it:
linear interpolation between closest ranks, with fractional rank
k = (m-1)*p/100, f = floor k and c = min (f+1) (m-1). -/
def percentile_claim (seq : List ℚ) (p : ℚ) : ℚ :=
  if p ≤ 0 then seq.getD 0 0
  else if 100 ≤ p then seq.getD (seq.length - 1) 0
  else
    let m := seq.length
    let k : ℚ := ((m - 1 : ℕ) : ℚ) * p / 100
    let f : ℤ := ⌊k⌋
    let c : ℤ := min (f + 1) ((m : ℤ) - 1)
    if f = c then seq.getD f.toNat 0
    else seq.getD f.toNat 0 * ((c : ℚ) - k) + seq.getD c.toNat 0 * (k - (f : ℚ))

/-- Embedding of the Metrics dataclass of src/dnsgauge.py. -/
structure Metrics where
  n : ℕ
  success_pct : ℚ
  timeout_pct : ℚ
  p50_ms : Option ℚ
  p95_ms : Option ℚ
  avg_ms : Option ℚ
  jitter_ms : Option ℚ
  nxdomain_pct : ℚ
  servfail_pct : ℚ
  http_err_pct : ℚ
  parse_err_pct : ℚ
  other_err_pct : ℚ
  trunc_pct : ℚ
  tcpfb_pct : ℚ
  resp_kb_p95 : Option ℚ
  http_version_mode : String
  conn_reuse_est_pct : Option ℚ
deriving Repr

/-- Embedding of compute_score of src/dnsgauge.py. -/
def compute_score (m : Metrics) : ℚ :=
  if m.n = 0 ∨ m.success_pct = 0 then 0
  else
    let p50 := m.p50_ms.getD 10000
    let p95 := m.p95_ms.getD 10000
    let jitter := m.jitter_ms.getD 10000
    let success_component := (m.success_pct / 100) * 60
    let tail_component := 25 * (100 / (p95 + 25))
    let med_component := 10 * (100 / (p50 + 25))
    let stable_component := 5 * (100 / (jitter + 10))
    success_component + tail_component + med_component + stable_component

/-- C1: compute_score returns exactly 0 when n = 0 or success_pct = 0,
and otherwise equals the weighted four-component formula of the spec,
with the 10000 fallback substituted for each undefined latency field. -/
theorem C1_compute_score_formula (m : Metrics) :
    ((m.n = 0 ∨ m.success_pct = 0) → compute_score m = 0)
      ∧ (m.n ≠ 0 → m.success_pct ≠ 0 →
          compute_score m =
            (m.success_pct / 100) * 60
              + 25 * 100 / (m.p95_ms.getD 10000 + 25)
              + 10 * 100 / (m.p50_ms.getD 10000 + 25)
              + 5 * 100 / (m.jitter_ms.getD 10000 + 10)) := by
  constructor
  · intro h
    rw [compute_score, if_pos h]
  · intro h1 h2
    rw [compute_score, if_neg (by tauto)]
    ring

/-- Concrete instantiation of the Metrics record used by witnesses. -/
def metricsExample : Metrics :=
  { n := 1, success_pct := 100, timeout_pct := 0, p50_ms := some 25, p95_ms := some 75,
    avg_ms := some 25, jitter_ms := some 40, nxdomain_pct := 0, servfail_pct := 0,
    http_err_pct := 0, parse_err_pct := 0, other_err_pct := 0, trunc_pct := 0, tcpfb_pct := 0,
    resp_kb_p95 := none, http_version_mode := "", conn_reuse_est_pct := none }

/-- Witness for C1: the formula branch evaluated at a concrete record. -/
theorem C1_witness :
    metricsExample.n ≠ 0 ∧ metricsExample.success_pct ≠ 0 ∧ compute_score metricsExample = 115 := by
  refine ⟨by norm_num [metricsExample], by norm_num [metricsExample], ?_⟩
  rw [(C1_compute_score_formula metricsExample).2 (by norm_num [metricsExample])
    (by norm_num [metricsExample])]
  norm_num [metricsExample]

/-- C2: for a non-empty sorted list the source percentile agrees with
the linear-interpolation-between-closest-ranks method of the spec, takes
the first element at p = 0 and the last at p = 100, and interpolates the
concrete example of the spec to 25. -/
theorem C2_percentile (seq : List ℚ) (p : ℚ) (hne : seq ≠ []) :
    percentile seq p = percentile_claim seq p
      ∧ percentile seq 0 = seq.getD 0 0
      ∧ percentile seq (100 : ℚ) = seq.getD (seq.length - 1) 0
      ∧ percentile [10, 20, 30, 40] 50 = 25 := by
  have hmain : ∀ q : ℚ, percentile seq q = percentile_claim seq q := by
    intro q
    rw [percentile, percentile_claim, if_neg hne]
    by_cases h0 : q ≤ 0
    · rw [if_pos h0, if_pos h0]
    · rw [if_neg h0, if_neg h0]
      by_cases h100 : 100 ≤ q
      · rw [if_pos h100, if_pos h100]
      · rw [if_neg h100, if_neg h100]
        have hk : 0 ≤ ((seq.length - 1 : ℕ) : ℚ) * (q / 100) := by
          have : (0:ℚ) ≤ q := by linarith [not_le.mp h0]
          positivity
        simp only [int_trunc_of_nonneg hk, mul_div_assoc]
  refine ⟨hmain p, hmain 0, hmain 100, ?_⟩
  · rw [percentile]
    norm_num
    rw [show int_trunc ((3:ℚ)/2) = 1 by
      rw [int_trunc_of_nonneg (by norm_num), Int.floor_eq_iff] <;> norm_num]
    norm_num [show Int.toNat 2 = 2 from rfl, List.getElem_cons_succ]
    simp

/-- Witness for C2 at the concrete sorted list of the spec. -/
theorem C2_witness :
    ([10, 20, 30, 40] : List ℚ) ≠ []
      ∧ percentile [10, 20, 30, 40] 50 = percentile_claim [10, 20, 30, 40] 50
      ∧ percentile [10, 20, 30, 40] 50 = 25 := by
  refine ⟨by simp, (C2_percentile [10, 20, 30, 40] 50 (by simp)).1,
    (C2_percentile [10, 20, 30, 40] 50 (by simp)).2.2.2⟩

/-- One step of the stable insertion sort used to model the stable
Python sorts (sorted and list.sort): the new element is placed before
the first already-placed element b with le a b, hence before later
elements with an equal key and after strictly better keys. -/
def insertRow {α : Type} (le : α → α → Bool) (a : α) : List α → List α
  | [] => [a]
  | b :: l => if le a b then a :: b :: l else b :: insertRow le a l

/-- Stable sort modelling Python sorted and list.sort: it produces the
sorted permutation with ties kept in input order, which is exactly the
observable behaviour of the stable sort of the source. -/
def stableSortBy {α : Type} (le : α → α → Bool) : List α → List α
  | [] => []
  | a :: l => insertRow le a (stableSortBy le l)

theorem insertRow_perm {α : Type} (le : α → α → Bool) (a : α) (l : List α) :
    (insertRow le a l).Perm (a :: l) := by
  induction l with
  | nil => exact List.Perm.refl _
  | cons b t ih =>
    rw [insertRow]
    by_cases h : le a b = true
    · rw [if_pos h]
    · rw [if_neg h]
      exact (ih.cons b).trans (List.Perm.swap a b t)

theorem stableSortBy_perm {α : Type} (le : α → α → Bool) (l : List α) :
    (stableSortBy le l).Perm l := by
  induction l with
  | nil => exact List.Perm.refl _
  | cons a t ih =>
    rw [stableSortBy]
    exact (insertRow_perm le a (stableSortBy le t)).trans (ih.cons a)

theorem insertRow_pairwise {α : Type} {le : α → α → Bool} {R : α → α → Prop}
    (htrans : ∀ x y z, le x y = true → le y z = true → le x z = true)
    (htotal : ∀ x y, le x y = true ∨ le y x = true)
    {a : α} {l : List α}
    (hl : l.Pairwise (fun x y => le x y = true ∧ (le y x = true → R x y)))
    (ha : ∀ b ∈ l, R a b) :
    (insertRow le a l).Pairwise (fun x y => le x y = true ∧ (le y x = true → R x y)) := by
  induction l with
  | nil => simp [insertRow]
  | cons b t ih =>
    rw [insertRow]
    rcases List.pairwise_cons.mp hl with ⟨hb, ht⟩
    by_cases h : le a b = true
    · rw [if_pos h]
      refine List.pairwise_cons.mpr ⟨?_, hl⟩
      intro c hc
      rcases List.mem_cons.mp hc with rfl | hct
      · exact ⟨h, fun _ => ha c (by simp)⟩
      · exact ⟨htrans a b c h (hb c hct).1, fun _ => ha c (by simp [hct])⟩
    · rw [if_neg h]
      refine List.pairwise_cons.mpr ⟨?_, ih ht (fun c hc => ha c (by simp [hc]))⟩
      intro c hc
      have hc2 := (insertRow_perm le a t).mem_iff.mp hc
      rcases List.mem_cons.mp hc2 with rfl | hct
      · rcases htotal c b with h1 | h2
        · exact absurd h1 h
        · exact ⟨h2, fun hab => absurd hab h⟩
      · exact hb c hct

theorem stableSortBy_pairwise {α : Type} {le : α → α → Bool} {R : α → α → Prop}
    (htrans : ∀ x y z, le x y = true → le y z = true → le x z = true)
    (htotal : ∀ x y, le x y = true ∨ le y x = true)
    {l : List α} (hl : l.Pairwise R) :
    (stableSortBy le l).Pairwise (fun x y => le x y = true ∧ (le y x = true → R x y)) := by
  induction l with
  | nil => simp [stableSortBy]
  | cons a t ih =>
    rw [stableSortBy]
    rcases List.pairwise_cons.mp hl with ⟨ha, ht⟩
    exact insertRow_pairwise htrans htotal (ih ht)
      (fun b hb => ha b ((stableSortBy_perm le t).mem_iff.mp hb))

/-- Ascending sort on rationals, modelling Python sorted on floats. -/
def sortAsc (l : List ℚ) : List ℚ := stableSortBy (fun a b => decide (a ≤ b)) l

/-- First-occurrence list of the distinct values of hv, modelling the
iteration order of the Python dict used for the http version counts. -/
def firstKeys (l : List String) : List String :=
  l.foldl (fun acc v => if v ∈ acc then acc else acc ++ [v]) []

/-- Most frequent non-empty http version value, ties broken by first
occurrence, modelling max over the insertion-ordered counts dict. -/
def http_mode (hv : List String) : String :=
  match firstKeys hv with
  | [] => ""
  | k :: ks => ks.foldl (fun best v => if hv.count best < hv.count v then v else best) k

/-- Embedding of compute_metrics of src/dnsgauge.py.  The population
standard deviation statistics.pstdev is Python standard-library code,
not part of this repository, and its numeric value involves a square
root that never influences any claim; it is therefore abstracted as the
pstdev parameter, applied exactly where the source applies it. -/
def compute_metrics (pstdev : List ℚ → ℚ) (measures : List Measurement)
    (protocol : String) (use_keepalive : Bool) (doh_host_count : ℕ) : Metrics :=
  let n := measures.length
  if n = 0 then
    { n := 0, success_pct := 0, timeout_pct := 0, p50_ms := none, p95_ms := none,
      avg_ms := none, jitter_ms := none, nxdomain_pct := 0, servfail_pct := 0,
      http_err_pct := 0, parse_err_pct := 0, other_err_pct := 0, trunc_pct := 0,
      tcpfb_pct := 0, resp_kb_p95 := none, http_version_mode := "", conn_reuse_est_pct := none }
  else
    let ok_lat := measures.filterMap fun m => if m.ok then m.latency_ms else none
    let ok_lat_sorted := sortAsc ok_lat
    let avg := if ok_lat = [] then none else some (ok_lat.sum / (ok_lat.length : ℚ))
    let p50 := if ok_lat_sorted = [] then none else some (percentile ok_lat_sorted 50)
    let p95 := if ok_lat_sorted = [] then none else some (percentile ok_lat_sorted 95)
    let jitter :=
      if 2 ≤ ok_lat.length then some (pstdev ok_lat)
      else if ok_lat.length = 1 then some 0 else none
    let pct := fun (kind : ErrorKind) =>
      ((measures.countP fun m => m.error_kind == kind : ℕ) : ℚ) / (n : ℚ) * 100
    let success_pct := ((measures.countP fun m => m.ok : ℕ) : ℚ) / (n : ℚ) * 100
    let trunc_pct := ((measures.countP fun m => m.trunc : ℕ) : ℚ) / (n : ℚ) * 100
    let tcpfb_pct := ((measures.countP fun m => m.tcp_fallback : ℕ) : ℚ) / (n : ℚ) * 100
    let resp_sizes := sortAsc (measures.filterMap fun m =>
      if 0 < m.resp_bytes then some ((m.resp_bytes : ℚ)) else none)
    let resp_kb_p95 := if resp_sizes = [] then none else some (percentile resp_sizes 95 / 1024)
    let hv := measures.filterMap fun m => if m.http_version ≠ "" then some m.http_version else none
    let conn_est : ℕ := if use_keepalive then max 1 doh_host_count else n
    let conn_reuse_est_pct :=
      if protocol = "DoH" then
        if 0 < n then some (max 0 ((1 - (conn_est : ℚ) / (n : ℚ)) * 100)) else none
      else none
    { n := n, success_pct := success_pct, timeout_pct := pct .timeout,
      p50_ms := p50, p95_ms := p95, avg_ms := avg, jitter_ms := jitter,
      nxdomain_pct := pct .nxdomain, servfail_pct := pct .servfail,
      http_err_pct := pct .http_err, parse_err_pct := pct .parse_err,
      other_err_pct := pct .other, trunc_pct := trunc_pct, tcpfb_pct := tcpfb_pct,
      resp_kb_p95 := resp_kb_p95, http_version_mode := http_mode hv,
      conn_reuse_est_pct := conn_reuse_est_pct }

/-- Embedding of the select_measures closure of run_tests: warm mode
with more than one pass keeps only the outcomes of pass 2 and later. -/
def select_measures (mode : String) (passes : ℕ) (allm : List Measurement) : List Measurement :=
  if mode = "warm" ∧ 1 < passes then allm.filter (fun m => decide (2 ≤ m.pass_index)) else allm

/-- Classification of a received DNS response by rcode, as in
classify_dns_rcode of src/dnsgauge.py; the dnspython rcode constants
are NOERROR = 0, SERVFAIL = 2 and NXDOMAIN = 3. -/
def classify_dns_rcode (rcode : ℕ) : ErrorKind :=
  if rcode = 0 then .ok
  else if rcode = 3 then .nxdomain
  else if rcode = 2 then .servfail
  else .other

/-- Behaviour of the TCP retry issued after a truncated UDP response:
the dns.query.tcp call either raises or yields a response carrying an
rcode, a wire length and an elapsed time in milliseconds. -/
inductive TcpNet
  | exc
  | resp (rcode : ℕ) (wire_len : ℕ) (elapsed_ms : ℚ)

/-- Behaviour of the dns.query.udp transport for one probe: a timeout,
another exception, or a response with truncation flag, rcode, wire
length, elapsed time, and the behaviour of the TCP retry that udp_query
performs when the truncation flag is set. -/
inductive UdpNet
  | timeout
  | exc
  | resp (tc : Bool) (rcode : ℕ) (wire_len : ℕ) (elapsed_ms : ℚ) (tcp : TcpNet)

/-- Embedding of udp_query of src/dnsgauge.py over the explicit
transport behaviour; the pass_index of 1 is overwritten by the caller
exactly as in the source. -/
def udp_query (net : UdpNet) (qtype_label : String) : Measurement :=
  match net with
  | .timeout =>
    { latency_ms := none, ok := false, error_kind := .timeout, resp_bytes := 0,
      qtype := qtype_label, pass_index := 1 }
  | .exc =>
    { latency_ms := none, ok := false, error_kind := .other, resp_bytes := 0,
      qtype := qtype_label, pass_index := 1 }
  | .resp tc rcode wire_len elapsed tcp =>
    if tc then
      match tcp with
      | .exc =>
        { latency_ms := some elapsed, ok := false, error_kind := .other,
          resp_bytes := wire_len, qtype := qtype_label, pass_index := 1,
          trunc := true, tcp_fallback := true }
      | .resp rcode2 wire_len2 elapsed2 =>
        let kind := classify_dns_rcode rcode2
        let okb := kind == .ok || kind == .nxdomain
        { latency_ms := some elapsed2, ok := okb, error_kind := kind,
          resp_bytes := wire_len2, qtype := qtype_label, pass_index := 1,
          trunc := true, tcp_fallback := true }
    else
      let kind := classify_dns_rcode rcode
      let okb := kind == .ok || kind == .nxdomain
      { latency_ms := some elapsed, ok := okb, error_kind := kind,
        resp_bytes := wire_len, qtype := qtype_label, pass_index := 1,
        trunc := false, tcp_fallback := false }

/-- Behaviour of the httpx POST for one DoH probe: a timeout, another
exception, or an HTTP response with status code, body length,
negotiated http version, elapsed time, and the DNS parse result of the
body, where none models a dns.message.from_wire failure. -/
inductive DohNet
  | timeout
  | exc
  | resp (status : ℕ) (body_len : ℕ) (http_version : String) (elapsed_ms : ℚ) (parsed : Option ℕ)

/-- Embedding of doh_query of src/dnsgauge.py over the explicit
transport behaviour. -/
def doh_query (net : DohNet) (qtype_label : String) : Measurement :=
  match net with
  | .timeout =>
    { latency_ms := none, ok := false, error_kind := .timeout, resp_bytes := 0,
      qtype := qtype_label, pass_index := 1 }
  | .exc =>
    { latency_ms := none, ok := false, error_kind := .other, resp_bytes := 0,
      qtype := qtype_label, pass_index := 1 }
  | .resp status body_len hv elapsed parsed =>
    if status ≠ 200 then
      { latency_ms := some elapsed, ok := false, error_kind := .http_err,
        resp_bytes := body_len, qtype := qtype_label, pass_index := 1, http_version := hv }
    else
      match parsed with
      | none =>
        { latency_ms := some elapsed, ok := false, error_kind := .parse_err,
          resp_bytes := body_len, qtype := qtype_label, pass_index := 1, http_version := hv }
      | some rcode =>
        let kind := classify_dns_rcode rcode
        let okb := kind == .ok || kind == .nxdomain
        { latency_ms := some elapsed, ok := okb, error_kind := kind,
          resp_bytes := body_len, qtype := qtype_label, pass_index := 1, http_version := hv }

/-- Embedding of the ServerTarget dataclass of src/dnsgauge.py. -/
structure ServerTarget where
  provider : String
  protocol : String
  endpoint : String
deriving DecidableEq, Repr

/-- Parsed URL as returned by the Python standard-library urlparse,
which is external to this repository: scheme, optional hostname and
optional port. -/
structure DohURL where
  scheme : String
  host : Option String
  port : Option ℕ
deriving DecidableEq, Repr

/-- Embedding of doh_host_key of src/dnsgauge.py, with urlparse
abstracted as the parse argument (none models a parse exception, in
which case the raw url is the key).  Python writes u.port or default,
and the or also replaces an explicit port of 0 because 0 is falsy. -/
def doh_host_key (parse : String → Option DohURL) (url : String) : String :=
  match parse url with
  | none => url
  | some u =>
    let host := u.host.getD ""
    let dflt : ℕ := if u.scheme = "https" then 443 else 80
    let port : ℕ := match u.port with
      | none => dflt
      | some p => if p = 0 then dflt else p
    u.scheme ++ "://" ++ host ++ ":" ++ toString port

/-- Number of distinct logical DoH hosts among the configured servers,
as computed in run_tests of src/dnsgauge.py with a set of host keys. -/
def doh_host_count (parse : String → Option DohURL) (servers : List ServerTarget) : ℕ :=
  ((servers.filterMap fun s =>
    if s.protocol = "DoH" then some (doh_host_key parse s.endpoint) else none).dedup).length

/-- Order in which run_tests of src/dnsgauge.py issues its probes: the
pass loop is outermost, then servers, then domains, then qtypes, and
run_tests clamps the configured pass count to at least 1. -/
def probe_list {α β γ : Type} (passes : ℕ) (servers : List α) (domains : List β)
    (qtypes : List γ) : List (ℕ × α × β × γ) :=
  (List.range' 1 (max 1 passes)).flatMap fun p =>
    servers.flatMap fun s =>
      domains.flatMap fun d =>
        qtypes.map fun q => (p, s, d, q)

/-- Round half to even, which is how Python %.1f-style formatting
rounds the digit that the ranking sort key keeps. -/
def rhe (q : ℚ) : ℤ :=
  let f := qfloor q
  let r := q - (f : ℚ)
  if r < 1/2 then f else if 1/2 < r then f + 1 else if f % 2 = 0 then f else f + 1

/-- Sort key that run_tests actually uses for ranking: the score is
formatted with one decimal digit into the first row cell and parsed
back with float, so the key is the score rounded to one decimal. -/
def key10 (s : ℚ) : ℚ := ((rhe (s * 10) : ℤ) : ℚ) / 10

/-- Comparison used to model rows.sort(key=float(first cell),
reverse=True): x may come before y when the rounded key of x is at
least the rounded key of y; the sort is stable on equal keys. -/
def rowLE (x y : ℚ × ℕ) : Bool := decide (key10 y.1 ≤ key10 x.1)

/-- Score rows annotated with their catalog position, in catalog
order, as built by the per-server loop of run_tests. -/
def rowsFrom (i : ℕ) : List ℚ → List (ℚ × ℕ)
  | [] => []
  | s :: t => (s, i) :: rowsFrom (i + 1) t

/-- Rank numbers 1.. prepended to the sorted rows, modelling the
enumerate-and-insert loop of run_tests. -/
def addRanks (r : ℕ) : List (ℚ × ℕ) → List (ℕ × ℚ × ℕ)
  | [] => []
  | a :: t => (r, a) :: addRanks (r + 1) t

/-- Ranking stage of run_tests of src/dnsgauge.py: rows sorted on the
formatted-score key, descending and stable, then rank numbers added. -/
def rank_rows (scores : List ℚ) : List (ℕ × ℚ × ℕ) :=
  addRanks 1 (stableSortBy rowLE (rowsFrom 0 scores))

theorem compute_score_of_zero {m : Metrics} (h : m.n = 0 ∨ m.success_pct = 0) :
    compute_score m = 0 := by
  rw [compute_score, if_pos h]

theorem compute_score_eq {m : Metrics} (h1 : m.n ≠ 0) (h2 : m.success_pct ≠ 0) :
    compute_score m =
      (m.success_pct / 100) * 60 + 25 * (100 / (m.p95_ms.getD 10000 + 25))
        + 10 * (100 / (m.p50_ms.getD 10000 + 25)) + 5 * (100 / (m.jitter_ms.getD 10000 + 10)) := by
  rw [compute_score, if_neg (by tauto)]

/-- C5: every Measurement produced by udp_query or doh_query satisfies
the classification invariant: ok is true exactly when the error kind is
ok or nxdomain. -/
theorem C5_classification_invariant (unet : UdpNet) (dnet : DohNet) (lab1 lab2 : String) :
    ((udp_query unet lab1).ok = true ↔
        ((udp_query unet lab1).error_kind = .ok ∨ (udp_query unet lab1).error_kind = .nxdomain))
      ∧ ((doh_query dnet lab2).ok = true ↔
        ((doh_query dnet lab2).error_kind = .ok ∨ (doh_query dnet lab2).error_kind = .nxdomain)) := by
  constructor
  · cases unet with
    | timeout => simp [udp_query]
    | exc => simp [udp_query]
    | resp tc rcode wire_len elapsed tcp =>
      by_cases htc : tc
      · cases tcp with
        | exc => simp [udp_query, htc]
        | resp rcode2 wire_len2 elapsed2 =>
          simp [udp_query, htc, Bool.or_eq_true, beq_iff_eq]
      · simp [udp_query, htc, Bool.or_eq_true, beq_iff_eq]
  · cases dnet with
    | timeout => simp [doh_query]
    | exc => simp [doh_query]
    | resp status body_len hv elapsed parsed =>
      by_cases hst : status = 200
      · cases parsed with
        | none => simp [doh_query, hst]
        | some rcode => simp [doh_query, hst, Bool.or_eq_true, beq_iff_eq]
      · simp [doh_query, hst]

/-- C4: the warm and mixed selection policies of run_tests. -/
theorem C4_select_measures (mode : String) (passes : ℕ) (allm : List Measurement) :
    (mode = "mixed" → select_measures mode passes allm = allm)
      ∧ (mode = "warm" → 1 < passes →
          select_measures mode passes allm = allm.filter (fun m => decide (2 ≤ m.pass_index)))
      ∧ (mode = "warm" → passes = 1 →
          select_measures mode passes allm = select_measures "mixed" passes allm)
      ∧ (select_measures mode passes allm).Sublist allm := by
  refine ⟨?_, ?_, ?_, ?_⟩
  · intro h
    subst h
    rw [select_measures, if_neg]
    rintro ⟨h1, _⟩
    exact absurd h1 (by decide)
  · intro h1 h2
    rw [select_measures, if_pos ⟨h1, h2⟩]
  · intro h1 h2
    subst h2
    rw [select_measures, if_neg (by rintro ⟨_, hp⟩; omega)]
    rw [select_measures, if_neg (by rintro ⟨hm, _⟩; exact absurd hm (by decide))]
  · rw [select_measures]
    split
    · exact List.filter_sublist allm
    · exact List.Sublist.refl allm

/-- Outcome with a given pass index, used by witnesses. -/
def measurementPass (i : ℕ) : Measurement :=
  { latency_ms := some 50, ok := true, error_kind := .ok, resp_bytes := 64,
    qtype := "A", pass_index := i }

/-- Witness for C4 at the three-pass example of the spec. -/
theorem C4_witness :
    select_measures "warm" 3 [measurementPass 1, measurementPass 2, measurementPass 3]
        = [measurementPass 2, measurementPass 3]
      ∧ select_measures "mixed" 3 [measurementPass 1, measurementPass 2, measurementPass 3]
        = [measurementPass 1, measurementPass 2, measurementPass 3] := by
  constructor
  · rw [(C4_select_measures "warm" 3 _).2.1 rfl (by norm_num)]
    simp [List.filter, measurementPass]
  · exact (C4_select_measures "mixed" 3 _).1 rfl

/-- C6: compute_score is monotone: raising success_pct with everything
else fixed never lowers the score, and lowering a defined p95 with
everything else fixed never lowers the score.  The nonnegativity
hypotheses record that percentages and latencies are nonnegative, as
in every Metrics value the aggregator can produce. -/
theorem C6_score_monotone :
    (∀ (m : Metrics) (s1 s2 : ℚ), 0 ≤ s1 → s1 ≤ s2 →
        0 ≤ m.p50_ms.getD 10000 → 0 ≤ m.p95_ms.getD 10000 → 0 ≤ m.jitter_ms.getD 10000 →
        compute_score { m with success_pct := s1 } ≤ compute_score { m with success_pct := s2 })
      ∧ (∀ (m : Metrics) (p1 p2 : ℚ), 0 ≤ p2 → p2 ≤ p1 →
          compute_score { m with p95_ms := some p1 } ≤ compute_score { m with p95_ms := some p2 }) := by
  constructor
  · intro m s1 s2 hs1 hs12 hp50 hp95 hj
    by_cases hn : m.n = 0
    · rw [compute_score_of_zero (m := { m with success_pct := s1 }) (Or.inl hn),
        compute_score_of_zero (m := { m with success_pct := s2 }) (Or.inl hn)]
    · by_cases h1 : s1 = 0
      · rw [compute_score_of_zero (m := { m with success_pct := s1 }) (Or.inr h1)]
        by_cases h2 : s2 = 0
        · rw [compute_score_of_zero (m := { m with success_pct := s2 }) (Or.inr h2)]
        · rw [compute_score_eq (m := { m with success_pct := s2 }) hn h2]
          dsimp only
          have hs2 : 0 ≤ s2 := le_trans hs1 hs12
          have c1 : (0:ℚ) ≤ 100 / (m.p95_ms.getD 10000 + 25) :=
            le_of_lt (div_pos (by norm_num) (by linarith))
          have c2 : (0:ℚ) ≤ 100 / (m.p50_ms.getD 10000 + 25) :=
            le_of_lt (div_pos (by norm_num) (by linarith))
          have c3 : (0:ℚ) ≤ 100 / (m.jitter_ms.getD 10000 + 10) :=
            le_of_lt (div_pos (by norm_num) (by linarith))
          have : (0:ℚ) ≤ (s2 / 100) * 60 := by positivity
          linarith
      · have h2 : s2 ≠ 0 := fun h => h1 (by linarith)
        rw [compute_score_eq (m := { m with success_pct := s1 }) hn h1,
          compute_score_eq (m := { m with success_pct := s2 }) hn h2]
        dsimp only
        linarith
  · intro m p1 p2 hp2 hp12
    by_cases h : m.n = 0 ∨ m.success_pct = 0
    · rw [compute_score_of_zero (m := { m with p95_ms := some p1 }) (by tauto),
        compute_score_of_zero (m := { m with p95_ms := some p2 }) (by tauto)]
    · push_neg at h
      rw [compute_score_eq (m := { m with p95_ms := some p1 }) h.1 h.2,
        compute_score_eq (m := { m with p95_ms := some p2 }) h.1 h.2]
      dsimp only
      simp only [Option.getD_some]
      have key : (100:ℚ) / (p1 + 25) ≤ 100 / (p2 + 25) :=
        div_le_div_of_nonneg_left (by norm_num) (by linarith) (by linarith)
      linarith

/-- Witness for C6: both monotonicity parts at a concrete record. -/
theorem C6_witness :
    compute_score { metricsExample with success_pct := 50 }
        ≤ compute_score { metricsExample with success_pct := 100 }
      ∧ compute_score { metricsExample with p95_ms := some 75 }
        ≤ compute_score { metricsExample with p95_ms := some 50 } :=
  ⟨C6_score_monotone.1 metricsExample 50 100 (by norm_num) (by norm_num)
      (by norm_num [metricsExample]) (by norm_num [metricsExample]) (by norm_num [metricsExample]),
    C6_score_monotone.2 metricsExample 75 50 (by norm_num) (by norm_num)⟩

theorem sortAsc_eq_nil_iff (l : List ℚ) : sortAsc l = [] ↔ l = [] := by
  constructor
  · intro h
    have hlen := (stableSortBy_perm (fun a b => decide (a ≤ b)) l).length_eq
    rw [sortAsc] at h
    rw [h] at hlen
    exact List.length_eq_zero.mp hlen.symm
  · rintro rfl
    rfl

/-- C9: on an all-failure outcome list the aggregator reports every
latency statistic as absent and the scorer returns exactly 0; both are
total Lean functions, so no input can raise. -/
theorem C9_all_failure (pstdev : List ℚ → ℚ) (measures : List Measurement)
    (protocol : String) (ka : Bool) (hc : ℕ)
    (hfail : ∀ m ∈ measures, m.ok = false) :
    (compute_metrics pstdev measures protocol ka hc).p50_ms = none
      ∧ (compute_metrics pstdev measures protocol ka hc).p95_ms = none
      ∧ (compute_metrics pstdev measures protocol ka hc).avg_ms = none
      ∧ (compute_metrics pstdev measures protocol ka hc).jitter_ms = none
      ∧ compute_score (compute_metrics pstdev measures protocol ka hc) = 0 := by
  have hempty : (measures.filterMap fun m => if m.ok then m.latency_ms else none) = [] := by
    rw [List.filterMap_eq_nil_iff]
    intro a ha
    rw [hfail a ha]
    simp
  have hcount : (measures.countP fun m => m.ok) = 0 := by
    rw [List.countP_eq_zero]
    intro a ha
    simp [hfail a ha]
  rcases measures with _ | ⟨m0, rest⟩
  · refine ⟨?_, ?_, ?_, ?_, ?_⟩ <;> simp [compute_metrics, compute_score]
  · refine ⟨?_, ?_, ?_, ?_, ?_⟩ <;>
      simp [compute_metrics, hempty, hcount, sortAsc, stableSortBy, compute_score]

/-- Outcome of a timed-out probe, used by witnesses. -/
def failMeasure : Measurement :=
  { latency_ms := none, ok := false, error_kind := .timeout, resp_bytes := 0,
    qtype := "A", pass_index := 1 }

/-- Witness for C9 on a one-element all-failure list. -/
theorem C9_witness :
    (∀ m ∈ [failMeasure], m.ok = false)
      ∧ (compute_metrics (fun _ => 0) [failMeasure] "UDP" false 0).p50_ms = none
      ∧ compute_score (compute_metrics (fun _ => 0) [failMeasure] "UDP" false 0) = 0 := by
  have h : ∀ m ∈ [failMeasure], m.ok = false := by
    intro m hm
    rcases List.mem_singleton.mp hm with rfl
    rfl
  exact ⟨h, (C9_all_failure (fun _ => 0) [failMeasure] "UDP" false 0 h).1,
    (C9_all_failure (fun _ => 0) [failMeasure] "UDP" false 0 h).2.2.2.2⟩

/-- C10: the response-size percentile is computed from exactly the
outcomes with a positive byte count: it is the 95th percentile of the
sorted positive sizes divided by 1024 when one exists, it is absent
when every outcome has zero bytes, and prepending a zero-byte outcome
never changes it. -/
theorem C10_resp_size_percentile (pstdev : List ℚ → ℚ) (measures : List Measurement)
    (protocol : String) (ka : Bool) (hc : ℕ) :
    ((∃ m ∈ measures, 0 < m.resp_bytes) →
        (compute_metrics pstdev measures protocol ka hc).resp_kb_p95
          = some (percentile (sortAsc (measures.filterMap fun m =>
              if 0 < m.resp_bytes then some ((m.resp_bytes : ℚ)) else none)) 95 / 1024))
      ∧ ((∀ m ∈ measures, m.resp_bytes = 0) →
          (compute_metrics pstdev measures protocol ka hc).resp_kb_p95 = none)
      ∧ (∀ m0 : Measurement, m0.resp_bytes = 0 →
          (compute_metrics pstdev (m0 :: measures) protocol ka hc).resp_kb_p95
            = (compute_metrics pstdev measures protocol ka hc).resp_kb_p95) := by
  refine ⟨?_, ?_, ?_⟩
  · rintro ⟨m, hm, hpos⟩
    have hne : (measures.filterMap fun m =>
        if 0 < m.resp_bytes then some ((m.resp_bytes : ℚ)) else none) ≠ [] := by
      intro h
      have := (List.filterMap_eq_nil_iff.mp h) m hm
      rw [if_pos hpos] at this
      cases this
    rcases measures with _ | ⟨m0, rest⟩
    · cases hm
    · rw [compute_metrics, if_neg (by simp)]
      dsimp only
      rw [if_neg (fun h => hne ((sortAsc_eq_nil_iff _).mp h))]
  · intro hzero
    have hempty : (measures.filterMap fun m =>
        if 0 < m.resp_bytes then some ((m.resp_bytes : ℚ)) else none) = [] := by
      rw [List.filterMap_eq_nil_iff]
      intro a ha
      rw [hzero a ha]
      simp
    rcases measures with _ | ⟨m0, rest⟩
    · simp [compute_metrics]
    · rw [compute_metrics, if_neg (by simp)]
      dsimp only
      rw [hempty]
      simp [sortAsc, stableSortBy]
  · intro m0 h0
    have hsame : ((m0 :: measures).filterMap fun m =>
        if 0 < m.resp_bytes then some ((m.resp_bytes : ℚ)) else none)
          = measures.filterMap fun m =>
            if 0 < m.resp_bytes then some ((m.resp_bytes : ℚ)) else none := by
      rw [List.filterMap_cons]
      rw [h0]
      simp
    rcases measures with _ | ⟨m1, rest⟩
    · rw [compute_metrics, if_neg (by simp)]
      dsimp only
      rw [hsame]
      simp [compute_metrics, sortAsc, stableSortBy]
    · have hL : ¬((m0 :: m1 :: rest).length = 0) := by simp
      have hR : ¬((m1 :: rest).length = 0) := by simp
      rw [compute_metrics, compute_metrics, if_neg hL, if_neg hR]
      dsimp only
      rw [hsame]

/-- Outcome with a given positive response size, used by witnesses. -/
def sizedMeasure (bytes : ℕ) : Measurement :=
  { latency_ms := some 50, ok := true, error_kind := .ok, resp_bytes := bytes,
    qtype := "A", pass_index := 1 }

/-- Witness for C10: a mixed list with sizes 100 and 200 and one
zero-byte outcome. -/
theorem C10_witness :
    (∃ m ∈ [sizedMeasure 100, failMeasure, sizedMeasure 200], 0 < m.resp_bytes)
      ∧ (compute_metrics (fun _ => 0) [sizedMeasure 100, failMeasure, sizedMeasure 200]
          "UDP" false 0).resp_kb_p95
        = some (percentile (sortAsc ([sizedMeasure 100, failMeasure,
            sizedMeasure 200].filterMap fun m =>
              if 0 < m.resp_bytes then some ((m.resp_bytes : ℚ)) else none)) 95 / 1024)
      ∧ (compute_metrics (fun _ => 0) [failMeasure] "UDP" false 0).resp_kb_p95 = none := by
  have hex : ∃ m ∈ [sizedMeasure 100, failMeasure, sizedMeasure 200], 0 < m.resp_bytes :=
    ⟨sizedMeasure 100, by simp, by norm_num [sizedMeasure]⟩
  refine ⟨hex, (C10_resp_size_percentile (fun _ => 0) _ "UDP" false 0).1 hex, ?_⟩
  exact (C10_resp_size_percentile (fun _ => 0) [failMeasure] "UDP" false 0).2.1
    (by intro m hm; rcases List.mem_singleton.mp hm with rfl; rfl)

/-- C7: the connection-reuse estimate of the aggregator follows the
formula of the spec: with keepalive the new-connection estimate is the
number of distinct logical DoH hosts (at least one host exists whenever
a DoH server is configured, which the third part records), and without
keepalive every query counts as a new connection, which makes the
estimate exactly 0. -/
theorem C7_conn_reuse (pstdev : List ℚ → ℚ) (measures : List Measurement) (hcnt : ℕ)
    (hne : measures ≠ []) (h1 : 1 ≤ hcnt) :
    ((compute_metrics pstdev measures "DoH" true hcnt).conn_reuse_est_pct
        = some (max 0 ((1 - (hcnt : ℚ) / (measures.length : ℚ)) * 100)))
      ∧ ((compute_metrics pstdev measures "DoH" false hcnt).conn_reuse_est_pct = some 0)
      ∧ (∀ (parse : String → Option DohURL) (servers : List ServerTarget) (s : ServerTarget),
          s ∈ servers → s.protocol = "DoH" → 1 ≤ doh_host_count parse servers) := by
  refine ⟨?_, ?_, ?_⟩
  · rcases measures with _ | ⟨m0, rest⟩
    · exact absurd rfl hne
    · rw [compute_metrics, if_neg (by simp)]
      dsimp only
      rw [if_pos rfl, if_pos (by simp), if_pos rfl]
      rw [Nat.max_eq_right h1]
  · rcases measures with _ | ⟨m0, rest⟩
    · exact absurd rfl hne
    · rw [compute_metrics, if_neg (by simp)]
      dsimp only
      rw [if_pos rfl, if_pos (by simp), if_neg (by simp)]
      have hlen : ((m0 :: rest).length : ℚ) ≠ 0 := Nat.cast_ne_zero.mpr (by simp)
      rw [div_self hlen]
      norm_num
  · intro parse servers s hs hproto
    have hkey : doh_host_key parse s.endpoint ∈ (servers.filterMap fun t =>
        if t.protocol = "DoH" then some (doh_host_key parse t.endpoint) else none) :=
      List.mem_filterMap.mpr ⟨s, hs, by rw [if_pos hproto]⟩
    have hmem := List.mem_dedup.mpr hkey
    exact List.length_pos.mpr (List.ne_nil_of_mem hmem)

/-- Concrete urlparse behaviour for the two witness URLs. -/
def parseExample (url : String) : Option DohURL :=
  if url = "https://a.example/dns-query" then
    some { scheme := "https", host := some "a.example", port := none }
  else if url = "https://b.example/dns-query" then
    some { scheme := "https", host := some "b.example", port := none }
  else none

/-- Two configured DoH servers on two distinct logical hosts. -/
def dohServers : List ServerTarget :=
  [ { provider := "A", protocol := "DoH", endpoint := "https://a.example/dns-query" },
    { provider := "B", protocol := "DoH", endpoint := "https://b.example/dns-query" } ]

/-- Ten captured DoH probes, used by the C7 witness. -/
def tenMeasures : List Measurement := List.replicate 10 (measurementPass 1)

/-- Witness for C7: ten probes against two distinct hosts give an 80
percent reuse estimate with keepalive and 0 without. -/
theorem C7_witness :
    doh_host_count parseExample dohServers = 2
      ∧ (compute_metrics (fun _ => 0) tenMeasures "DoH" true
          (doh_host_count parseExample dohServers)).conn_reuse_est_pct = some 80
      ∧ (compute_metrics (fun _ => 0) tenMeasures "DoH" false
          (doh_host_count parseExample dohServers)).conn_reuse_est_pct = some 0 := by
  have hcount : doh_host_count parseExample dohServers = 2 := by decide
  have hne : tenMeasures ≠ [] := by
    intro h
    have := congrArg List.length h
    simp [tenMeasures] at this
  refine ⟨hcount, ?_, ?_⟩
  · rw [hcount, (C7_conn_reuse (fun _ => 0) tenMeasures 2 hne (by norm_num)).1]
    have hlen : (tenMeasures.length : ℚ) = 10 := by simp [tenMeasures]
    rw [hlen]
    push_cast
    norm_num [max_eq_right]
  · rw [hcount, (C7_conn_reuse (fun _ => 0) tenMeasures 2 hne (by norm_num)).2.1]

theorem rowsFrom_mem_ge (l : List ℚ) : ∀ (i : ℕ) (b : ℚ × ℕ), b ∈ rowsFrom i l → i ≤ b.2 := by
  induction l with
  | nil => intro i b hb; cases hb
  | cons s t ih =>
    intro i b hb
    rcases List.mem_cons.mp hb with rfl | hb2
    · exact le_refl i
    · exact le_trans (Nat.le_succ i) (ih (i + 1) b hb2)

theorem rowsFrom_pairwise (l : List ℚ) :
    ∀ i : ℕ, (rowsFrom i l).Pairwise (fun x y => x.2 < y.2) := by
  induction l with
  | nil => intro i; exact List.Pairwise.nil
  | cons s t ih =>
    intro i
    refine List.pairwise_cons.mpr ⟨?_, ih (i + 1)⟩
    intro b hb
    exact lt_of_lt_of_le (Nat.lt_succ_self i) (rowsFrom_mem_ge t (i + 1) b hb)

theorem rowsFrom_length (l : List ℚ) : ∀ i : ℕ, (rowsFrom i l).length = l.length := by
  induction l with
  | nil => intro i; rfl
  | cons s t ih => intro i; simp [rowsFrom, ih (i + 1)]

theorem addRanks_map_fst (l : List (ℚ × ℕ)) :
    ∀ r : ℕ, (addRanks r l).map Prod.fst = List.range' r l.length := by
  induction l with
  | nil => intro r; rfl
  | cons a t ih =>
    intro r
    rw [addRanks, List.length_cons, List.range'_succ]
    simp [ih (r + 1)]

theorem rowLE_trans (x y z : ℚ × ℕ) (h1 : rowLE x y = true) (h2 : rowLE y z = true) :
    rowLE x z = true := by
  simp only [rowLE, decide_eq_true_eq] at h1 h2 ⊢
  exact le_trans h2 h1

theorem rowLE_total (x y : ℚ × ℕ) : rowLE x y = true ∨ rowLE y x = true := by
  simp only [rowLE, decide_eq_true_eq]
  exact le_total (key10 y.1) (key10 x.1)

/-- C3 as amended: the ranked rows of run_tests are sorted descending
on the key the code actually sorts on, namely the score rounded to one
decimal by the row formatting; rows whose rounded keys are equal, and
in particular rows with identical computed scores, keep their catalog
order; rank numbers 1..k are assigned in the sorted order; and the
sorted rows are a permutation of the catalog rows. -/
theorem C3_rank_rows (scores : List ℚ) :
    ((rank_rows scores).map Prod.fst = List.range' 1 scores.length)
      ∧ (stableSortBy rowLE (rowsFrom 0 scores)).Pairwise
          (fun x y => key10 y.1 ≤ key10 x.1)
      ∧ (stableSortBy rowLE (rowsFrom 0 scores)).Pairwise
          (fun x y => key10 x.1 = key10 y.1 → x.2 < y.2)
      ∧ (stableSortBy rowLE (rowsFrom 0 scores)).Pairwise
          (fun x y => x.1 = y.1 → x.2 < y.2)
      ∧ (stableSortBy rowLE (rowsFrom 0 scores)).Perm (rowsFrom 0 scores) := by
  have hT := @stableSortBy_pairwise (ℚ × ℕ) rowLE (fun x y => x.2 < y.2)
    rowLE_trans rowLE_total (rowsFrom 0 scores) (rowsFrom_pairwise scores 0)
  refine ⟨?_, ?_, ?_, ?_, stableSortBy_perm rowLE (rowsFrom 0 scores)⟩
  · rw [rank_rows, addRanks_map_fst]
    rw [(stableSortBy_perm rowLE (rowsFrom 0 scores)).length_eq, rowsFrom_length]
  · refine hT.imp ?_
    intro x y h
    have := h.1
    simpa only [rowLE, decide_eq_true_eq] using this
  · refine hT.imp ?_
    intro x y h hkey
    exact h.2 (by simp only [rowLE, decide_eq_true_eq]; exact le_of_eq hkey)
  · refine hT.imp ?_
    intro x y h hkey
    exact h.2 (by simp only [rowLE, decide_eq_true_eq]; exact le_of_eq (by rw [hkey]))

/-- Metrics of a server whose score is exactly 111.4. -/
def metricsA : Metrics :=
  { n := 1, success_pct := 100, timeout_pct := 0, p50_ms := some 2475, p95_ms := some 2475,
    avg_ms := some 2475, jitter_ms := some 0, nxdomain_pct := 0, servfail_pct := 0,
    http_err_pct := 0, parse_err_pct := 0, other_err_pct := 0, trunc_pct := 0, tcpfb_pct := 0,
    resp_kb_p95 := none, http_version_mode := "", conn_reuse_est_pct := none }

/-- Metrics of a server whose score is 11250/101, about 111.386, which
formats to the same one-decimal cell 111.4 as metricsA. -/
def metricsB : Metrics :=
  { n := 1, success_pct := 100, timeout_pct := 0, p50_ms := some 2500, p95_ms := some 2500,
    avg_ms := some 2500, jitter_ms := some 0, nxdomain_pct := 0, servfail_pct := 0,
    http_err_pct := 0, parse_err_pct := 0, other_err_pct := 0, trunc_pct := 0, tcpfb_pct := 0,
    resp_kb_p95 := none, http_version_mode := "", conn_reuse_est_pct := none }

theorem scoreA_eq : compute_score metricsA = 557/5 := by
  rw [compute_score_eq (m := metricsA) (by norm_num [metricsA]) (by norm_num [metricsA])]
  norm_num [metricsA]

theorem scoreB_eq : compute_score metricsB = 11250/101 := by
  rw [compute_score_eq (m := metricsB) (by norm_num [metricsB]) (by norm_num [metricsB])]
  norm_num [metricsB]

theorem key10_scoreA : key10 (compute_score metricsA) = 1114/10 := by
  rw [scoreA_eq, key10]
  rw [show (557:ℚ)/5 * 10 = 1114 by norm_num]
  rw [show rhe (1114 : ℚ) = 1114 by
    simp only [rhe]
    rw [qfloor_eq, show ⌊(1114:ℚ)⌋ = 1114 by rw [Int.floor_eq_iff] <;> norm_num]
    norm_num]
  norm_num

theorem key10_scoreB : key10 (compute_score metricsB) = 1114/10 := by
  rw [scoreB_eq, key10]
  rw [show (11250:ℚ)/101 * 10 = 112500/101 by norm_num]
  rw [show rhe ((112500:ℚ)/101) = 1114 by
    simp only [rhe]
    rw [qfloor_eq, show ⌊(112500:ℚ)/101⌋ = 1113 by rw [Int.floor_eq_iff] <;> norm_num]
    norm_num]
  norm_num

/-- Counterexample to C3 as stated: with catalog order [B, A], where
the computed score of B is strictly below the computed score of A but
both format to the rounded cell 111.4, the ranking stage keeps B first,
so the final rows are not sorted by computed score in descending
order. -/
theorem C3_counterexample :
    compute_score metricsB < compute_score metricsA
      ∧ stableSortBy rowLE (rowsFrom 0 [compute_score metricsB, compute_score metricsA])
        = [(compute_score metricsB, 0), (compute_score metricsA, 1)] := by
  constructor
  · rw [scoreA_eq, scoreB_eq]
    norm_num
  · simp only [rowsFrom, stableSortBy, insertRow]
    rw [if_pos]
    simp only [rowLE, decide_eq_true_eq, key10_scoreA, key10_scoreB]
    norm_num

theorem flatMap_const_length {α β : Type} (l : List α) (f : α → List β) (k : ℕ)
    (hk : ∀ a ∈ l, (f a).length = k) : (l.flatMap f).length = l.length * k := by
  induction l with
  | nil => simp
  | cons a t ih =>
    rw [List.flatMap_cons, List.length_append, hk a (by simp),
      ih (fun b hb => hk b (by simp [hb])), List.length_cons, Nat.succ_mul]
    omega

theorem flatMap_getD {α β : Type} (l : List α) (f : α → List β) (k : ℕ)
    (hk : ∀ a ∈ l, (f a).length = k) :
    ∀ (i : ℕ), i < l.length * k → ∀ (d : β) (da : α),
      (l.flatMap f).getD i d = (f (l.getD (i / k) da)).getD (i % k) d := by
  induction l with
  | nil =>
    intro i hi d da
    simp at hi
  | cons a t ih =>
    intro i hi d da
    have hk0 : 0 < k := by
      rcases Nat.eq_zero_or_pos k with rfl | h
      · simp at hi
      · exact h
    rw [List.flatMap_cons]
    by_cases hcase : i < k
    · rw [List.getD_append _ _ _ _ (by rw [hk a (by simp)]; exact hcase)]
      rw [Nat.div_eq_of_lt hcase, Nat.mod_eq_of_lt hcase, List.getD_cons_zero]
    · push_neg at hcase
      obtain ⟨j, rfl⟩ : ∃ j, i = k + j := ⟨i - k, by omega⟩
      rw [List.getD_append_right _ _ _ _ (by rw [hk a (by simp)]; omega)]
      rw [hk a (by simp), show k + j - k = j by omega]
      have hdiv : (k + j) / k = j / k + 1 := by
        rw [Nat.add_comm]
        exact Nat.add_div_right j hk0
      have hmod : (k + j) % k = j % k := Nat.add_mod_left k j
      rw [hdiv, hmod, List.getD_cons_succ]
      apply ih (fun b hb => hk b (by simp [hb]))
      rw [List.length_cons, Nat.succ_mul] at hi
      omega

theorem probe_list_inner_length {α β γ : Type} (servers : List α) (domains : List β)
    (qtypes : List γ) (p : ℕ) :
    ((servers.flatMap fun s => domains.flatMap fun d =>
        qtypes.map fun q => (p, s, d, q)).length)
      = servers.length * (domains.length * qtypes.length) := by
  apply flatMap_const_length
  intro s hs
  apply flatMap_const_length
  intro d hd
  exact List.length_map qtypes _

/-- C8 as amended: the i-th probe issued by run_tests, for i below the
total count, is fully determined by the div-mod decomposition of i with
the pass as the most significant digit, then the server, then the
domain, then the qtype: the pass loop is outermost, and within a pass
every domain and qtype of one server is issued before the next server
is touched. -/
theorem C8_probe_order {α β γ : Type} (passes : ℕ) (servers : List α) (domains : List β)
    (qtypes : List γ) (i : ℕ)
    (hi : i < (max 1 passes) * (servers.length * (domains.length * qtypes.length)))
    (d : ℕ × α × β × γ) (da : α) (db : β) (dc : γ) :
    (probe_list passes servers domains qtypes).getD i d
      = (1 + i / (servers.length * (domains.length * qtypes.length)),
         servers.getD ((i / (domains.length * qtypes.length)) % servers.length) da,
         domains.getD ((i / qtypes.length) % domains.length) db,
         qtypes.getD (i % qtypes.length) dc) := by
  have hQ : 0 < qtypes.length := by
    rcases Nat.eq_zero_or_pos qtypes.length with h | h
    · rw [h] at hi; simp at hi
    · exact h
  have hD : 0 < domains.length := by
    rcases Nat.eq_zero_or_pos domains.length with h | h
    · rw [h] at hi; simp at hi
    · exact h
  have hS : 0 < servers.length := by
    rcases Nat.eq_zero_or_pos servers.length with h | h
    · rw [h] at hi; simp at hi
    · exact h
  have hSDQ : 0 < servers.length * (domains.length * qtypes.length) := by positivity
  have hDQ : 0 < domains.length * qtypes.length := by positivity
  rw [probe_list]
  rw [flatMap_getD _ _ (servers.length * (domains.length * qtypes.length))
    (fun p _ => probe_list_inner_length servers domains qtypes p) i
    (by rw [List.length_range']; exact hi) d 1]
  have hp : (List.range' 1 (max 1 passes)).getD
      (i / (servers.length * (domains.length * qtypes.length))) 1
        = 1 + i / (servers.length * (domains.length * qtypes.length)) := by
    have hlt : i / (servers.length * (domains.length * qtypes.length)) < max 1 passes :=
      Nat.div_lt_of_lt_mul (by rw [Nat.mul_comm] at hi; exact hi)
    rw [List.getD_eq_getElem _ _ (by rw [List.length_range']; exact hlt)]
    rw [List.getElem_range']
    omega
  rw [hp]
  rw [flatMap_getD _ _ (domains.length * qtypes.length)
    (fun s _ => flatMap_const_length _ _ _ (fun dd _ => List.length_map qtypes _))
    (i % (servers.length * (domains.length * qtypes.length)))
    (by exact Nat.mod_lt i hSDQ) d da]
  have e1 : i % (servers.length * (domains.length * qtypes.length))
      / (domains.length * qtypes.length)
        = i / (domains.length * qtypes.length) % servers.length := by
    rw [Nat.mul_comm servers.length (domains.length * qtypes.length)]
    exact Nat.mod_mul_right_div_self i (domains.length * qtypes.length) servers.length
  have e2 : i % (servers.length * (domains.length * qtypes.length))
      % (domains.length * qtypes.length) = i % (domains.length * qtypes.length) :=
    Nat.mod_mod_of_dvd i ⟨servers.length, Nat.mul_comm _ _⟩
  rw [e1, e2]
  rw [flatMap_getD _ _ qtypes.length (fun dd _ => List.length_map qtypes _)
    (i % (domains.length * qtypes.length)) (Nat.mod_lt i hDQ) d db]
  have e3 : i % (domains.length * qtypes.length) / qtypes.length
      = i / qtypes.length % domains.length := by
    rw [Nat.mul_comm domains.length qtypes.length]
    exact Nat.mod_mul_right_div_self i qtypes.length domains.length
  have e4 : i % (domains.length * qtypes.length) % qtypes.length = i % qtypes.length :=
    Nat.mod_mod_of_dvd i ⟨domains.length, Nat.mul_comm _ _⟩
  rw [e3, e4]
  have hq : i % qtypes.length < qtypes.length := Nat.mod_lt i hQ
  rw [List.getD_eq_getElem _ _ (by rw [List.length_map]; exact hq), List.getElem_map]
  rw [List.getD_eq_getElem _ _ hq]

/-- Counterexample to C8 as stated: with one pass, two servers, two
domains and one qtype, the code issues both domains for the first
server before the first domain of the second server, so queries for a
given pass, domain and qtype do not happen against all servers before
the run advances to the next domain. -/
theorem C8_counterexample :
    probe_list 1 ([0, 1] : List ℕ) ([10, 11] : List ℕ) ([20] : List ℕ)
        = [(1, 0, 10, 20), (1, 0, 11, 20), (1, 1, 10, 20), (1, 1, 11, 20)]
      ∧ probe_list 1 ([0, 1] : List ℕ) ([10, 11] : List ℕ) ([20] : List ℕ)
        ≠ [(1, 0, 10, 20), (1, 1, 10, 20), (1, 0, 11, 20), (1, 1, 11, 20)] := by
  constructor
  · decide
  · decide

/-- Witness for C8 at a concrete two-pass run. -/
theorem C8_witness :
    3 < max 1 2 * (([0, 1] : List ℕ).length * (([10] : List ℕ).length * ([20] : List ℕ).length))
      ∧ (probe_list 2 ([0, 1] : List ℕ) ([10] : List ℕ) ([20] : List ℕ)).getD 3 (0, 0, 0, 0)
        = (2, 1, 10, 20) := by
  refine ⟨by decide, ?_⟩
  rw [C8_probe_order 2 [0, 1] [10] [20] 3 (by decide) (0, 0, 0, 0) 0 0 0]
  decide

/-- Witness-style instance of the amended ranking property at a
concrete score list. -/
theorem C3_witness :
    (rank_rows [compute_score metricsB, compute_score metricsA]).map Prod.fst
        = List.range' 1 2
      ∧ (stableSortBy rowLE (rowsFrom 0 [compute_score metricsB, compute_score metricsA])).Perm
          (rowsFrom 0 [compute_score metricsB, compute_score metricsA]) :=
  ⟨(C3_rank_rows [compute_score metricsB, compute_score metricsA]).1,
    (C3_rank_rows [compute_score metricsB, compute_score metricsA]).2.2.2.2⟩
